import Mathlib

set_option maxRecDepth 100000

/-!
Verification of the lead-generator repository: a shallow embedding of the
results-extraction block of streamlit_app.py, the crew construction of
src/lead_generator/crew.py, the sidebar configuration of
src/components/sidebar.py and the usage tracker of src/utils/pricing.py,
together with theorems settling the specification claims about them.

Text is modelled as List Char.  Python str.strip() and the whitespace
tolerance of json.loads are both modelled with the whitespace set
space, tab, newline, carriage return.
-/

namespace LeadGen

/-- JSON values as produced by json.loads.  Numbers keep their source
literal (their floating-point value is never inspected by the program). -/
inductive Json where
  | null : Json
  | bool (b : Bool) : Json
  | num (lit : List Char) : Json
  | str (s : List Char) : Json
  | arr (items : List Json) : Json
  | obj (fields : List (List Char × Json)) : Json

/-- Model of Python isinstance(x, dict). -/
def Json.isObj : Json → Bool
  | .obj _ => true
  | _ => false

/-- Model of Python isinstance(x, list). -/
def Json.isArr : Json → Bool
  | .arr _ => true
  | _ => false

/-- Whitespace characters recognised when stripping and around JSON tokens. -/
def isWsChar (c : Char) : Bool :=
  c = ' ' || c = '\t' || c = '\n' || c = '\r'

/-- Leading-whitespace removal. -/
def stripLeft (s : List Char) : List Char := s.dropWhile isWsChar

/-- Trailing-whitespace removal. -/
def stripRight (s : List Char) : List Char :=
  (s.reverse.dropWhile isWsChar).reverse

/-- Model of Python str.strip(): remove leading and trailing whitespace. -/
def pyStrip (s : List Char) : List Char := stripRight (stripLeft s)

/-- Split `s` at the first occurrence of `pat`: the text before the
occurrence and the text after it, or `none` when `pat` does not occur.
This models both Python's `pat in s` test (`isSome`) and the first cut of
`s.split(pat)`. -/
def splitOnFirst (pat : List Char) : List Char → Option (List Char × List Char)
  | [] => none
  | c :: rest =>
    if pat.isPrefixOf (c :: rest) then some ([], (c :: rest).drop pat.length)
    else
      match splitOnFirst pat rest with
      | some (a, b) => some (c :: a, b)
      | none => none

/-- Model of Python `pat in s`. -/
def containsSub (pat s : List Char) : Bool := (splitOnFirst pat s).isSome

/-- The text before the first occurrence of `pat`, the whole text when
`pat` does not occur; this is `s.split(pat)[0]`. -/
def takeUntil (pat s : List Char) : List Char :=
  match splitOnFirst pat s with
  | some (a, _) => a
  | none => s

/-! ### A model of json.loads

A fuel-driven recursive-descent parser for the JSON grammar accepted by
Python's json.loads (strict mode, with the default acceptance of NaN,
Infinity and -Infinity as number constants).  Strings decode the standard
escapes; numbers keep their literal spelling. -/

/-- Skip whitespace, as json.loads does between tokens. -/
def skipWs (s : List Char) : List Char := s.dropWhile isWsChar

/-- Value of a hexadecimal digit. -/
def hexVal (c : Char) : Option Nat :=
  if '0' ≤ c ∧ c ≤ '9' then some (c.toNat - '0'.toNat)
  else if 'a' ≤ c ∧ c ≤ 'f' then some (c.toNat - 'a'.toNat + 10)
  else if 'A' ≤ c ∧ c ≤ 'F' then some (c.toNat - 'A'.toNat + 10)
  else none

/-- Decode the body of a JSON string after the opening quote: the decoded
content and the rest of the input after the closing quote.  Control
characters are rejected, as in strict json.loads. -/
def parseStr (fuel : Nat) (s : List Char) : Option (List Char × List Char) :=
  match fuel, s with
  | 0, _ => none
  | _, [] => none
  | fuel + 1, c :: rest =>
    if c = '"' then some ([], rest)
    else if c = '\\' then
      match rest with
      | [] => none
      | e :: rest2 =>
        if e = 'u' then
          match rest2 with
          | h1 :: h2 :: h3 :: h4 :: rest3 =>
            match hexVal h1, hexVal h2, hexVal h3, hexVal h4 with
            | some v1, some v2, some v3, some v4 =>
              (parseStr fuel rest3).map fun p =>
                (Char.ofNat (((v1 * 16 + v2) * 16 + v3) * 16 + v4) :: p.1, p.2)
            | _, _, _, _ => none
          | _ => none
        else
          match
            (if e = '"' then some '"'
             else if e = '\\' then some '\\'
             else if e = '/' then some '/'
             else if e = 'b' then some (Char.ofNat 8)
             else if e = 'f' then some (Char.ofNat 12)
             else if e = 'n' then some '\n'
             else if e = 'r' then some '\r'
             else if e = 't' then some '\t'
             else none) with
          | some d => (parseStr fuel rest2).map fun p => (d :: p.1, p.2)
          | none => none
    else if c.toNat < 32 then none
    else (parseStr fuel rest).map fun p => (c :: p.1, p.2)

/-- Decimal digit test. -/
def isDigitChar (c : Char) : Bool := '0' ≤ c && c ≤ '9'

/-- Parse a JSON number literal (sign, integer part without leading zeros,
optional fraction, optional exponent); returns the literal and the rest. -/
def parseNumLit (s : List Char) : Option (List Char × List Char) :=
  let (sign, s1) :=
    match s with
    | '-' :: r => (['-'], r)
    | _ => (([] : List Char), s)
  let intStep : Option (List Char × List Char) :=
    match s1 with
    | '0' :: r => some (sign ++ ['0'], r)
    | c :: _ =>
      if isDigitChar c then
        let intPart := s1.takeWhile isDigitChar
        some (sign ++ intPart, s1.dropWhile isDigitChar)
      else none
    | [] => none
  intStep.bind fun p =>
    let (lit1, r1) := p
    let (lit2, r2) :=
      match r1 with
      | '.' :: r =>
        if (r.takeWhile isDigitChar).isEmpty then (lit1, r1)
        else (lit1 ++ ['.'] ++ r.takeWhile isDigitChar, r.dropWhile isDigitChar)
      | _ => (lit1, r1)
    match r2 with
      | e :: r3 =>
        if e = 'e' ∨ e = 'E' then
          let (esign, r4) :=
            match r3 with
            | '+' :: r => (['+'], r)
            | '-' :: r => (['-'], r)
            | _ => (([] : List Char), r3)
          let eds := r4.takeWhile isDigitChar
          if eds.isEmpty then none
          else some (lit2 ++ [e] ++ esign ++ eds, r4.dropWhile isDigitChar)
        else some (lit2, r2)
      | [] => some (lit2, r2)

mutual

/-- Parse one JSON value; returns the value and the unconsumed rest. -/
def parseVal : Nat → List Char → Option (Json × List Char)
  | 0, _ => none
  | fuel + 1, s =>
    match skipWs s with
    | 'n' :: 'u' :: 'l' :: 'l' :: r => some (.null, r)
    | 't' :: 'r' :: 'u' :: 'e' :: r => some (.bool true, r)
    | 'f' :: 'a' :: 'l' :: 's' :: 'e' :: r => some (.bool false, r)
    | 'N' :: 'a' :: 'N' :: r => some (.num ['N', 'a', 'N'], r)
    | 'I' :: 'n' :: 'f' :: 'i' :: 'n' :: 'i' :: 't' :: 'y' :: r =>
      some (.num "Infinity".toList, r)
    | '-' :: 'I' :: 'n' :: 'f' :: 'i' :: 'n' :: 'i' :: 't' :: 'y' :: r =>
      some (.num "-Infinity".toList, r)
    | '"' :: r => (parseStr fuel r).map fun p => (.str p.1, p.2)
    | '[' :: r => (parseArrItems fuel r).map fun p => (.arr p.1, p.2)
    | '{' :: r => (parseObjItems fuel r).map fun p => (.obj p.1, p.2)
    | s' => (parseNumLit s').map fun p => (.num p.1, p.2)

/-- Parse the items of an array after the opening bracket. -/
def parseArrItems : Nat → List Char → Option (List Json × List Char)
  | 0, _ => none
  | fuel + 1, s =>
    match skipWs s with
    | ']' :: r => some ([], r)
    | _ =>
      match parseVal fuel s with
      | some (v, r) =>
        (parseArrTail fuel r).map fun p => (v :: p.1, p.2)
      | none => none

/-- Parse array continuation: a closing bracket or a comma and more items. -/
def parseArrTail : Nat → List Char → Option (List Json × List Char)
  | 0, _ => none
  | fuel + 1, s =>
    match skipWs s with
    | ']' :: r => some ([], r)
    | ',' :: r =>
      match parseVal fuel r with
      | some (v, r2) => (parseArrTail fuel r2).map fun p => (v :: p.1, p.2)
      | none => none
    | _ => none

/-- Parse the members of an object after the opening brace. -/
def parseObjItems : Nat → List Char → Option (List (List Char × Json) × List Char)
  | 0, _ => none
  | fuel + 1, s =>
    match skipWs s with
    | '}' :: r => some ([], r)
    | '"' :: r =>
      match parseStr fuel r with
      | some (k, r2) =>
        match skipWs r2 with
        | ':' :: r3 =>
          match parseVal fuel r3 with
          | some (v, r4) => (parseObjTail fuel r4).map fun p => ((k, v) :: p.1, p.2)
          | none => none
        | _ => none
      | none => none
    | _ => none

/-- Parse object continuation: a closing brace or a comma and more members. -/
def parseObjTail : Nat → List Char → Option (List (List Char × Json) × List Char)
  | 0, _ => none
  | fuel + 1, s =>
    match skipWs s with
    | '}' :: r => some ([], r)
    | ',' :: r =>
      match skipWs r with
      | '"' :: r2 =>
        match parseStr fuel r2 with
        | some (k, r3) =>
          match skipWs r3 with
          | ':' :: r4 =>
            match parseVal fuel r4 with
            | some (v, r5) => (parseObjTail fuel r5).map fun p => ((k, v) :: p.1, p.2)
            | none => none
          | _ => none
        | none => none
      | _ => none
    | _ => none

end

/-- Model of json.loads: tolerate surrounding whitespace, parse exactly one
value, reject trailing content. -/
def parseJson (s : List Char) : Option Json :=
  match parseVal (2 * (pyStrip s).length + 4) (pyStrip s) with
  | some (v, []) => some v
  | _ => none

/-! ### The results-extraction block of streamlit_app.py

All three branches of the block share one parsing step: if the text
contains a fenced marker, cut out the substring between the first marker
and the next fence, strip it and parse it; otherwise parse the whole text.
The branches differ only in how a parsed value or a failure is turned into
`results_list`. -/

/-- The opening fenced-block marker the code searches for. -/
def jsonTag : List Char := "```json".toList

/-- The fence delimiter used to close the block. -/
def fenceDelim : List Char := "```".toList

/-- The shared parsing step of the extraction block: models
`if '``'+'`json' in raw: json.loads(raw.split('``'+'`json')[1].split('``'+'`')[0].strip())
else: json.loads(raw)` (backticks split here only for this comment).
`none` is the caught parse-failure exception. -/
def extractCore (raw : List Char) : Option Json :=
  match splitOnFirst jsonTag raw with
  | some (_, after) => parseJson (pyStrip (takeUntil fenceDelim (takeUntil jsonTag after)))
  | none => parseJson raw

/-- Truncation applied to the raw text in the diagnostic record:
`str(raw_output)[:500] + ('...' if len(str(raw_output)) > 500 else '')`. -/
def truncRaw (raw : List Char) : List Char :=
  raw.take 500 ++ (if 500 < raw.length then "...".toList else [])

/-- Branch of the block for `tasks_output[-1].raw` (streamlit_app.py lines
196-217): a parsed array is the result, a parsed object is wrapped in a
one-element list, anything else — scalars and parse failures alike —
becomes a one-element list with the raw text under the key raw_output. -/
def extractTasksOutput (raw : List Char) : List Json :=
  match extractCore raw with
  | some (Json.arr items) => items
  | some (Json.obj fields) => [Json.obj fields]
  | some _ => [Json.obj [("raw_output".toList, Json.str raw)]]
  | none => [Json.obj [("raw_output".toList, Json.str raw)]]

/-- The two fallback branches of the block (streamlit_app.py lines 220-229
and 232-241), which work on `results.raw`; they differ only in the error
message of the diagnostic record produced on parse failure. -/
def extractRawFallback (errMsg raw : List Char) : List Json :=
  match extractCore raw with
  | some (Json.obj fields) => [Json.obj fields]
  | some (Json.arr items) => items
  | some _ => [Json.obj [("raw_data".toList, Json.str raw)]]
  | none =>
    [Json.obj [("error".toList, Json.str errMsg),
               ("raw".toList, Json.str (truncRaw raw))]]

/-- Error message of the fallback branch taken when the last task has no
raw attribute (line 229). -/
def errNoParse : List Char := "Could not parse results".toList

/-- Error message of the fallback branch taken when there is no
tasks_output at all (line 241). -/
def errNoResults : List Char := "No valid results found".toList

/-! ### The crew of src/lead_generator/crew.py

Tasks, their declared context dependencies and the order in which the
Crew receives them, from LeadGenerator.__init__ and LeadGenerator.crew. -/

/-- The four tasks built by LeadGenerator. -/
inductive TaskId where
  | leadGeneration : TaskId
  | contactResearch : TaskId
  | leadQualification : TaskId
  | salesManagement : TaskId
deriving DecidableEq

/-- The context list passed to each Task constructor
(_create_contact_research_task, _create_lead_qualification_task,
_create_sales_management_task; the lead-generation task has none). -/
def taskContext : TaskId → List TaskId
  | .leadGeneration => []
  | .contactResearch => [.leadGeneration]
  | .leadQualification => [.leadGeneration, .contactResearch]
  | .salesManagement => [.leadQualification]

/-- The tasks list handed to Crew(...) in LeadGenerator.crew. -/
def crewTasks : List TaskId :=
  [.leadGeneration, .contactResearch, .leadQualification, .salesManagement]

/-! ### Tool initialization and agent construction (crew.py lines 51-234) -/

/-- The facts _initialize_tools depends on: the key passed to the
constructor, the SERPER_API_KEY environment value, whether the
crewai_tools import succeeds, and whether each tool's own constructor
succeeds. -/
structure ToolEnv where
  serperArg : Option (List Char)
  envSerper : Option (List Char)
  importOk : Bool
  searchInitOk : Bool
  scrapeInitOk : Bool

/-- Python truthiness of an optional string. -/
def isTruthy : Option (List Char) → Bool
  | some s => !s.isEmpty
  | none => false

/-- `self.serper_api_key = serper_api_key or os.environ.get('SERPER_API_KEY')`
in LeadGenerator.__init__. -/
def effectiveSerperKey (arg env : Option (List Char)) : Option (List Char) :=
  match arg with
  | some s => if s.isEmpty then env else some s
  | none => env

/-- Model of _initialize_tools: availability of (search_tool, scrape_tool).
An import failure leaves both None; otherwise the search tool is attempted
only when the stored key is truthy and survives its own failure, and the
scrape tool is attempted unconditionally and survives its own failure. -/
def initTools (e : ToolEnv) : Bool × Bool :=
  if e.importOk then
    (isTruthy (effectiveSerperKey e.serperArg e.envSerper) && e.searchInitOk,
     e.scrapeInitOk)
  else
    (false, false)

/-- Tool kinds bound to agents. -/
inductive ToolKind where
  | search : ToolKind
  | scrape : ToolKind
deriving DecidableEq

/-- Tools bound to the lead generator agent (and, identically, the contact
agent): search then scrape, each only when available. -/
def generatorAgentTools (e : ToolEnv) : List ToolKind :=
  (if (initTools e).1 then [ToolKind.search] else []) ++
    (if (initTools e).2 then [ToolKind.scrape] else [])

/-- Tools bound to the lead qualifier agent: only search, when available. -/
def qualifierAgentTools (e : ToolEnv) : List ToolKind :=
  if (initTools e).1 then [ToolKind.search] else []

/-- Tools bound to the sales manager agent: always none. -/
def salesManagerAgentTools (_ : ToolEnv) : List ToolKind := []

/-- The agents list handed to Crew(...): lead generator, contact agent,
lead qualifier, sales manager, each with its bound tool subset. -/
def crewAgents (e : ToolEnv) : List (List ToolKind) :=
  [generatorAgentTools e, generatorAgentTools e, qualifierAgentTools e,
   salesManagerAgentTools e]

/-! ### The sidebar configuration (src/components/sidebar.py) and how
streamlit_app.py threads it into LeadGenerator. -/

/-- The dict returned by render_sidebar (lines 62-65): exactly the two
booleans, from the truthiness of the two text inputs. -/
def renderSidebarConfig (openaiInput serpInput : List Char) : List (List Char × Json) :=
  [("has_openai_key".toList, Json.bool (!openaiInput.isEmpty)),
   ("has_serp_key".toList, Json.bool (!serpInput.isEmpty))]

/-- The SERPER_API_KEY environment value after render_sidebar ran: the
sidebar writes the entered key into the environment when it is non-empty
(sidebar.py lines 38-39). -/
def envAfterSidebar (envBefore : Option (List Char)) (serpInput : List Char) :
    Option (List Char) :=
  if serpInput.isEmpty then envBefore else some serpInput

/-- Python dict .get with no default: `config.get('serper_api_key')`. -/
def configGet (cfg : List (List Char × Json)) (k : List Char) : Option Json :=
  List.lookup k cfg

/-! ### The usage tracker of src/utils/pricing.py

Token counts are Python integers; costs use exact rational arithmetic in
place of Python floats. -/

/-- The mutable state of ModelsPricing. -/
structure ModelsPricing where
  total_tokens : Int
  input_tokens : Int
  output_tokens : Int
  total_cost : ℚ

/-- ModelsPricing.__init__: all counters zero. -/
def ModelsPricing.init : ModelsPricing :=
  { total_tokens := 0, input_tokens := 0, output_tokens := 0, total_cost := 0 }

/-- ModelsPricing.track_usage. -/
def trackUsage (m : ModelsPricing) (input output : Int) : ModelsPricing :=
  { input_tokens := m.input_tokens + input,
    output_tokens := m.output_tokens + output,
    total_tokens := m.total_tokens + (input + output),
    total_cost := m.total_cost +
      (((input : ℚ) / 1000) * (0.03 : ℚ) + ((output : ℚ) / 1000) * (0.06 : ℚ)) }

/-- ModelsPricing.get_usage_summary: the four accumulated values. -/
def getUsageSummary (m : ModelsPricing) : Int × Int × Int × ℚ :=
  (m.total_tokens, m.input_tokens, m.output_tokens, m.total_cost)

/-- The cost attributed to one track_usage call. -/
def callCost (c : Int × Int) : ℚ :=
  ((c.1 : ℚ) / 1000) * (0.03 : ℚ) + ((c.2 : ℚ) / 1000) * (0.06 : ℚ)

/-- A fresh tracker after a sequence of track_usage calls. -/
def runCalls (calls : List (Int × Int)) : ModelsPricing :=
  calls.foldl (fun m c => trackUsage m c.1 c.2) ModelsPricing.init

/-! ### Field-alias resolution in the results display and report blocks -/

/-- Python dict .get with a default. -/
def pyGet (lead : List (List Char × Json)) (k : List Char) (dflt : Json) : Json :=
  match List.lookup k lead with
  | some v => v
  | none => dflt

/-- Python `k in lead`. -/
def pyHasKey (lead : List (List Char × Json)) (k : List Char) : Bool :=
  (List.lookup k lead).isSome

/-- Python dict assignment lead[k] = v: replace the binding when the key
exists, otherwise append it. -/
def pySet (lead : List (List Char × Json)) (k : List Char) (v : Json) :
    List (List Char × Json) :=
  if pyHasKey lead k then
    lead.map fun p => if p.1 = k then (k, v) else p
  else
    lead ++ [(k, v)]

/-- `lead.get('company_name', lead.get('company', 'Unnamed Company'))`
(streamlit_app.py line 344). -/
def resolveCompanyName (lead : List (List Char × Json)) : Json :=
  pyGet lead "company_name".toList
    (pyGet lead "company".toList (Json.str "Unnamed Company".toList))

/-- `lead.get('website_url', lead.get('link', 'N/A'))` (line 362). -/
def resolveWebsite (lead : List (List Char × Json)) : Json :=
  pyGet lead "website_url".toList (pyGet lead "link".toList (Json.str "N/A".toList))

/-- `lead.get('sales_recommendations', lead.get('recommendation', ''))`
(lines 297 and 300). -/
def resolveSalesRec (lead : List (List Char × Json)) : Json :=
  pyGet lead "sales_recommendations".toList
    (pyGet lead "recommendation".toList (Json.str []))

/-- Lines 295-300: when either recommendation key is present the resolved
text is attached to the record under _displayed_recommendations. -/
def attachDisplayedRec (lead : List (List Char × Json)) : List (List Char × Json) :=
  if pyHasKey lead "sales_recommendations".toList ||
      pyHasKey lead "recommendation".toList then
    pySet lead "_displayed_recommendations".toList (resolveSalesRec lead)
  else
    lead

/-- Generic ordered alias resolution: the value of the first present key in
`keys`, the default when none is present.  This is the specification shape
the claim states; the theorems relate the .get chains above to it. -/
def resolveAliases (lead : List (List Char × Json)) :
    List (List Char) → Json → Json
  | [], dflt => dflt
  | k :: ks, dflt =>
    match List.lookup k lead with
    | some v => v
    | none => resolveAliases lead ks dflt

/-! ## Theorems -/

/-- C6: the constructed pipeline is exactly the four tasks lead generation,
contact research, lead qualification, sales management, in that order, and
every task appears in the Crew's task list strictly after every task named
in its declared context (contact research after lead generation; lead
qualification after lead generation and contact research; sales management
after lead qualification). -/
theorem crew_pipeline_order :
    crewTasks = [TaskId.leadGeneration, TaskId.contactResearch,
      TaskId.leadQualification, TaskId.salesManagement] ∧
    crewTasks.length = 4 ∧
    ∀ t ∈ crewTasks, ∀ c ∈ taskContext t,
      crewTasks.indexOf c < crewTasks.indexOf t := by
  refine ⟨rfl, rfl, ?_⟩
  decide

/-- Witness for C6 at a concrete pair: contact research sits strictly after
its declared upstream lead-generation task. -/
theorem crew_pipeline_order_witness :
    crewTasks.indexOf TaskId.leadGeneration < crewTasks.indexOf TaskId.contactResearch :=
  crew_pipeline_order.2.2 TaskId.contactResearch (by decide)
    TaskId.leadGeneration (by decide)

/-- C9: the sidebar configuration dict has exactly the keys has_openai_key
and has_serp_key, so `config.get('serper_api_key')` — the value
streamlit_app.py passes to the LeadGenerator cache lookup — is always
None, and with a None argument the constructor's stored key is exactly the
SERPER_API_KEY value from the process environment (as left by the
sidebar). -/
theorem sidebar_serper_key_from_env :
    ∀ (openaiInput serpInput : List Char) (envBefore : Option (List Char)),
      (renderSidebarConfig openaiInput serpInput).map Prod.fst =
        ["has_openai_key".toList, "has_serp_key".toList] ∧
      configGet (renderSidebarConfig openaiInput serpInput) "serper_api_key".toList
        = none ∧
      effectiveSerperKey none (envAfterSidebar envBefore serpInput) =
        envAfterSidebar envBefore serpInput := by
  intro openaiInput serpInput envBefore
  refine ⟨rfl, ?_, rfl⟩
  simp [configGet, renderSidebarConfig, List.lookup]

/-- How one fold step over track_usage moves each accumulator. -/
theorem pricing_fold_aux :
    ∀ (calls : List (Int × Int)) (m : ModelsPricing),
      (calls.foldl (fun m c => trackUsage m c.1 c.2) m).total_tokens
          = m.total_tokens + (calls.map fun c => c.1 + c.2).sum ∧
      (calls.foldl (fun m c => trackUsage m c.1 c.2) m).input_tokens
          = m.input_tokens + (calls.map Prod.fst).sum ∧
      (calls.foldl (fun m c => trackUsage m c.1 c.2) m).output_tokens
          = m.output_tokens + (calls.map Prod.snd).sum ∧
      (calls.foldl (fun m c => trackUsage m c.1 c.2) m).total_cost
          = m.total_cost + (calls.map callCost).sum := by
  intro calls
  induction calls with
  | nil => intro m; simp
  | cons c cs ih =>
    intro m
    obtain ⟨h1, h2, h3, h4⟩ := ih (trackUsage m c.1 c.2)
    simp only [List.foldl_cons, List.map_cons, List.sum_cons]
    rw [h1, h2, h3, h4]
    simp only [trackUsage, callCost]
    exact ⟨by ring, by ring, by ring, by ring⟩

/-- Summing pairwise sums splits into the two componentwise sums. -/
theorem sum_pair_components (calls : List (Int × Int)) :
    (calls.map fun c => c.1 + c.2).sum
      = (calls.map Prod.fst).sum + (calls.map Prod.snd).sum := by
  induction calls with
  | nil => simp
  | cons c cs ih =>
    simp only [List.map_cons, List.sum_cons, ih]
    ring

/-- C10: starting from a fresh ModelsPricing, after any sequence of
track_usage calls the invariant total_tokens = input_tokens + output_tokens
holds (hence it holds after every call of any run), total_cost is the sum
over the calls of input/1000 * 0.03 + output/1000 * 0.06, and
get_usage_summary returns exactly the four accumulated values. -/
theorem pricing_invariant :
    ∀ calls : List (Int × Int),
      (runCalls calls).total_tokens
          = (runCalls calls).input_tokens + (runCalls calls).output_tokens ∧
      (runCalls calls).input_tokens = (calls.map Prod.fst).sum ∧
      (runCalls calls).output_tokens = (calls.map Prod.snd).sum ∧
      (runCalls calls).total_cost = (calls.map callCost).sum ∧
      getUsageSummary (runCalls calls)
        = ((runCalls calls).total_tokens, (runCalls calls).input_tokens,
           (runCalls calls).output_tokens, (runCalls calls).total_cost) := by
  intro calls
  obtain ⟨h1, h2, h3, h4⟩ := pricing_fold_aux calls ModelsPricing.init
  refine ⟨?_, ?_, ?_, ?_, rfl⟩
  · rw [runCalls, h1, h2, h3, sum_pair_components]; simp [ModelsPricing.init]
  · rw [runCalls, h2]; simp [ModelsPricing.init]
  · rw [runCalls, h3]; simp [ModelsPricing.init]
  · rw [runCalls, h4]; simp [ModelsPricing.init]

/-- A tool bound to the generator (or contact) agent is an initialized
tool. -/
theorem mem_generatorAgentTools (e : ToolEnv) (t : ToolKind)
    (ht : t ∈ generatorAgentTools e) :
    (t = ToolKind.search → (initTools e).1 = true) ∧
    (t = ToolKind.scrape → (initTools e).2 = true) := by
  rw [generatorAgentTools] at ht
  cases h1 : (initTools e).1 <;> cases h2 : (initTools e).2 <;>
    rw [h1, h2] at ht <;> simp at ht <;>
    constructor <;> intro hk <;> simp_all

/-- A tool bound to the qualifier agent is an initialized tool. -/
theorem mem_qualifierAgentTools (e : ToolEnv) (t : ToolKind)
    (ht : t ∈ qualifierAgentTools e) :
    (t = ToolKind.search → (initTools e).1 = true) ∧
    (t = ToolKind.scrape → (initTools e).2 = true) := by
  rw [qualifierAgentTools] at ht
  cases h1 : (initTools e).1 <;> rw [h1] at ht
  · simp at ht
  · simp at ht
    constructor <;> intro hk <;> simp_all

/-- C7: tool initialization is total (a Lean function cannot raise), search
availability depends only on import success, credential truthiness and the
search tool's own constructor, scrape availability depends only on import
success and the scrape tool's own constructor — so either tool failing or
a missing credential leaves the other tool untouched — and all four agents
are always constructed, carrying only tools that did initialize. -/
theorem tool_init_independent_agents_total :
    ∀ e : ToolEnv,
      (initTools e).1
          = (e.importOk && (isTruthy (effectiveSerperKey e.serperArg e.envSerper)
              && e.searchInitOk)) ∧
      (initTools e).2 = (e.importOk && e.scrapeInitOk) ∧
      (crewAgents e).length = 4 ∧
      (∀ tools ∈ crewAgents e, ∀ t ∈ tools,
        (t = ToolKind.search → (initTools e).1 = true) ∧
        (t = ToolKind.scrape → (initTools e).2 = true)) := by
  intro e
  refine ⟨?_, ?_, rfl, ?_⟩
  · cases h : e.importOk <;> simp [initTools, h]
  · cases h : e.importOk <;> simp [initTools, h]
  · intro tools htools t ht
    have hcases : tools = generatorAgentTools e ∨ tools = qualifierAgentTools e ∨
        tools = salesManagerAgentTools e := by
      simp only [crewAgents, List.mem_cons, List.not_mem_nil, or_false] at htools
      tauto
    rcases hcases with h | h | h <;> subst h
    · exact mem_generatorAgentTools e t ht
    · exact mem_qualifierAgentTools e t ht
    · simp [salesManagerAgentTools] at ht

/-- Witness for C7 at a concrete environment: import succeeds, the search
tool's constructor fails, the scrape tool initializes — search is absent,
scrape present, and the scrape binding on the first agent is backed by a
successfully initialized tool. -/
theorem tool_init_witness :
    initTools ⟨none, some "k".toList, true, false, true⟩ = (false, true) ∧
    crewAgents ⟨none, some "k".toList, true, false, true⟩
      = [[ToolKind.scrape], [ToolKind.scrape], [], []] ∧
    (initTools ⟨none, some "k".toList, true, false, true⟩).2 = true :=
  ⟨rfl, rfl,
    ((tool_init_independent_agents_total ⟨none, some "k".toList, true, false, true⟩).2.2.2
      [ToolKind.scrape] (by decide) ToolKind.scrape (by decide)).2 rfl⟩

/-- Appending a binding for an absent key makes it the one found. -/
theorem lookup_append_self (k : List Char) (v : Json) :
    ∀ d : List (List Char × Json),
      List.lookup k d = none → List.lookup k (d ++ [(k, v)]) = some v := by
  intro d
  induction d with
  | nil => intro _; simp [List.lookup]
  | cons p rest ih =>
    intro h
    rcases p with ⟨k1, v1⟩
    cases hbk : (k == k1) with
    | true => simp [List.lookup, hbk] at h
    | false =>
      simp only [List.lookup, hbk] at h
      simp only [List.cons_append, List.lookup, hbk]
      exact ih h

/-- Replacing the binding of a present key makes the new value the one
found. -/
theorem lookup_replace (k : List Char) (v : Json) :
    ∀ d : List (List Char × Json),
      (List.lookup k d).isSome = true →
      List.lookup k (d.map fun q => if q.1 = k then (k, v) else q) = some v := by
  intro d
  induction d with
  | nil => intro h; simp [List.lookup] at h
  | cons p rest ih =>
    intro h
    rcases p with ⟨k1, v1⟩
    rw [List.map_cons]
    by_cases hp : k1 = k
    · subst hp
      show List.lookup k1
        ((if ((k1, v1) : List Char × Json).1 = k1 then (k1, v) else (k1, v1)) ::
          rest.map fun q => if q.1 = k1 then (k1, v) else q) = some v
      rw [if_pos rfl]
      exact List.lookup_cons_self
    · have hbk : (k == k1) = false := by
        simp only [beq_eq_false_iff_ne, ne_eq]
        exact fun hh => hp hh.symm
      show List.lookup k
        ((if ((k1, v1) : List Char × Json).1 = k then (k, v) else (k1, v1)) ::
          rest.map fun q => if q.1 = k then (k, v) else q) = some v
      rw [if_neg hp, List.lookup_cons, hbk]
      rw [List.lookup_cons, hbk] at h
      exact ih h

/-- Looking a key up after a Python-style dict assignment of that key finds
the assigned value. -/
theorem lookup_pySet (lead : List (List Char × Json)) (k : List Char) (v : Json) :
    List.lookup k (pySet lead k v) = some v := by
  rw [pySet]
  by_cases h : pyHasKey lead k
  · rw [if_pos h]
    exact lookup_replace k v lead h
  · rw [if_neg h]
    apply lookup_append_self
    cases hl : List.lookup k lead with
    | none => rfl
    | some w => exact absurd (by rw [pyHasKey, hl]; rfl) h

/-- C8: each canonical field is resolved by taking the first present key of
a fixed ordered alias list — company_name then company (default Unnamed
Company), website_url then link (default N/A), sales_recommendations then
recommendation (default empty) — and when a recommendation key is present
the resolved text is attached to the record under the synthesized key
_displayed_recommendations used by the report; the report's own chain
starts with that synthesized key. -/
theorem alias_resolution :
    ∀ lead : List (List Char × Json),
      resolveCompanyName lead = resolveAliases lead
        ["company_name".toList, "company".toList] (Json.str "Unnamed Company".toList) ∧
      resolveWebsite lead = resolveAliases lead
        ["website_url".toList, "link".toList] (Json.str "N/A".toList) ∧
      resolveSalesRec lead = resolveAliases lead
        ["sales_recommendations".toList, "recommendation".toList] (Json.str []) ∧
      ((pyHasKey lead "sales_recommendations".toList ||
          pyHasKey lead "recommendation".toList) = true →
        List.lookup "_displayed_recommendations".toList (attachDisplayedRec lead)
          = some (resolveSalesRec lead)) := by
  intro lead
  refine ⟨?_, ?_, ?_, ?_⟩
  · rw [resolveCompanyName]
    cases h1 : List.lookup "company_name".toList lead <;>
      cases h2 : List.lookup "company".toList lead <;>
      simp [resolveAliases, pyGet, h1, h2]
  · rw [resolveWebsite]
    cases h1 : List.lookup "website_url".toList lead <;>
      cases h2 : List.lookup "link".toList lead <;>
      simp [resolveAliases, pyGet, h1, h2]
  · rw [resolveSalesRec]
    cases h1 : List.lookup "sales_recommendations".toList lead <;>
      cases h2 : List.lookup "recommendation".toList lead <;>
      simp [resolveAliases, pyGet, h1, h2]
  · intro hpresent
    rw [attachDisplayedRec, if_pos hpresent]
    exact lookup_pySet lead _ _

/-- Witness for C8 at a concrete record holding only the fallback aliases:
company resolves through the company key, and the resolved recommendation
text is attached under _displayed_recommendations. -/
theorem alias_resolution_witness :
    resolveCompanyName [("company".toList, Json.str "Acme".toList),
        ("recommendation".toList, Json.str "call".toList)]
      = Json.str "Acme".toList ∧
    resolveSalesRec [("company".toList, Json.str "Acme".toList),
        ("recommendation".toList, Json.str "call".toList)]
      = Json.str "call".toList ∧
    List.lookup "_displayed_recommendations".toList
        (attachDisplayedRec [("company".toList, Json.str "Acme".toList),
          ("recommendation".toList, Json.str "call".toList)])
      = some (resolveSalesRec [("company".toList, Json.str "Acme".toList),
          ("recommendation".toList, Json.str "call".toList)]) :=
  ⟨rfl, rfl,
    (alias_resolution [("company".toList, Json.str "Acme".toList),
      ("recommendation".toList, Json.str "call".toList)]).2.2.2 (by decide)⟩

/-- C1 counterexample: extraction applied to the valid JSON texts
an empty array and a one-number array returns, respectively, an empty list
and a list whose entry is not dict-like — contradicting "always a
non-empty list all of whose entries are dict-like". -/
theorem extract_nonempty_cex :
    extractTasksOutput (String.toList "[]") = [] ∧
    extractTasksOutput (String.toList "[1]") = [Json.num ['1']] ∧
    (Json.num ['1']).isObj = false :=
  ⟨rfl, rfl, rfl⟩

/-- Unfolding the tasks_output branch on parse failure. -/
theorem tasksOutput_of_none (raw : List Char) (h : extractCore raw = none) :
    extractTasksOutput raw = [Json.obj [("raw_output".toList, Json.str raw)]] := by
  rw [extractTasksOutput, h]

/-- Unfolding the tasks_output branch on a parsed array. -/
theorem tasksOutput_of_arr (raw : List Char) (items : List Json)
    (h : extractCore raw = some (Json.arr items)) :
    extractTasksOutput raw = items := by
  rw [extractTasksOutput, h]

/-- Unfolding the tasks_output branch on a parsed object. -/
theorem tasksOutput_of_obj (raw : List Char) (fields : List (List Char × Json))
    (h : extractCore raw = some (Json.obj fields)) :
    extractTasksOutput raw = [Json.obj fields] := by
  rw [extractTasksOutput, h]

/-- Unfolding the tasks_output branch on a parsed scalar. -/
theorem tasksOutput_of_scalar (raw : List Char) (v : Json)
    (h : extractCore raw = some v) (hobj : v.isObj = false) (harr : v.isArr = false) :
    extractTasksOutput raw = [Json.obj [("raw_output".toList, Json.str raw)]] := by
  cases v <;> simp [Json.isObj, Json.isArr] at hobj harr <;> rw [extractTasksOutput, h]

/-- Unfolding the fallback branches on parse failure. -/
theorem fallback_of_none (errMsg raw : List Char) (h : extractCore raw = none) :
    extractRawFallback errMsg raw
      = [Json.obj [("error".toList, Json.str errMsg),
          ("raw".toList, Json.str (truncRaw raw))]] := by
  rw [extractRawFallback, h]

/-- Unfolding the fallback branches on a parsed array. -/
theorem fallback_of_arr (errMsg raw : List Char) (items : List Json)
    (h : extractCore raw = some (Json.arr items)) :
    extractRawFallback errMsg raw = items := by
  rw [extractRawFallback, h]

/-- Unfolding the fallback branches on a parsed object. -/
theorem fallback_of_obj (errMsg raw : List Char) (fields : List (List Char × Json))
    (h : extractCore raw = some (Json.obj fields)) :
    extractRawFallback errMsg raw = [Json.obj fields] := by
  rw [extractRawFallback, h]

/-- Unfolding the fallback branches on a parsed scalar. -/
theorem fallback_of_scalar (errMsg raw : List Char) (v : Json)
    (h : extractCore raw = some v) (hobj : v.isObj = false) (harr : v.isArr = false) :
    extractRawFallback errMsg raw
      = [Json.obj [("raw_data".toList, Json.str raw)]] := by
  cases v <;> simp [Json.isObj, Json.isArr] at hobj harr <;> rw [extractRawFallback, h]

/-- C1 amended: extraction never raises (it is a total function) and
always returns a list; when the parse does not yield a JSON array — object,
scalar or failure — the result is a one-element list of dict records, while
a parsed JSON array is returned as-is and may be empty or hold non-dict
entries.  This covers the tasks_output branch and both results.raw
fallback branches. -/
theorem extract_total_shape :
    ∀ raw errMsg : List Char,
      (∃ items, extractCore raw = some (Json.arr items) ∧
        extractTasksOutput raw = items ∧ extractRawFallback errMsg raw = items) ∨
      ((extractTasksOutput raw).length = 1 ∧
        (∀ r ∈ extractTasksOutput raw, r.isObj = true) ∧
        (extractRawFallback errMsg raw).length = 1 ∧
        (∀ r ∈ extractRawFallback errMsg raw, r.isObj = true)) := by
  intro raw errMsg
  rcases h : extractCore raw with _ | v
  · right
    rw [tasksOutput_of_none raw h, fallback_of_none errMsg raw h]
    refine ⟨rfl, ?_, rfl, ?_⟩ <;>
        (intro r hr; rw [List.mem_singleton] at hr; subst hr; rfl)
  · cases v with
    | arr items =>
      left
      exact ⟨items, rfl, tasksOutput_of_arr raw items h,
        fallback_of_arr errMsg raw items h⟩
    | null =>
      right
      rw [tasksOutput_of_scalar raw _ h rfl rfl,
        fallback_of_scalar errMsg raw _ h rfl rfl]
      refine ⟨rfl, ?_, rfl, ?_⟩ <;>
        (intro r hr; rw [List.mem_singleton] at hr; subst hr; rfl)
    | bool b =>
      right
      rw [tasksOutput_of_scalar raw _ h rfl rfl,
        fallback_of_scalar errMsg raw _ h rfl rfl]
      refine ⟨rfl, ?_, rfl, ?_⟩ <;>
        (intro r hr; rw [List.mem_singleton] at hr; subst hr; rfl)
    | num lit =>
      right
      rw [tasksOutput_of_scalar raw _ h rfl rfl,
        fallback_of_scalar errMsg raw _ h rfl rfl]
      refine ⟨rfl, ?_, rfl, ?_⟩ <;>
        (intro r hr; rw [List.mem_singleton] at hr; subst hr; rfl)
    | str s =>
      right
      rw [tasksOutput_of_scalar raw _ h rfl rfl,
        fallback_of_scalar errMsg raw _ h rfl rfl]
      refine ⟨rfl, ?_, rfl, ?_⟩ <;>
        (intro r hr; rw [List.mem_singleton] at hr; subst hr; rfl)
    | obj fields =>
      right
      rw [tasksOutput_of_obj raw fields h, fallback_of_obj errMsg raw fields h]
      refine ⟨rfl, ?_, rfl, ?_⟩ <;>
        (intro r hr; rw [List.mem_singleton] at hr; subst hr; rfl)

/-- Witness for C1 amended at the concrete empty-array input. -/
theorem extract_total_shape_witness :
    (∃ items, extractCore (String.toList "[]") = some (Json.arr items) ∧
      extractTasksOutput (String.toList "[]") = items ∧
      extractRawFallback errNoParse (String.toList "[]") = items) ∨
    ((extractTasksOutput (String.toList "[]")).length = 1 ∧
      (∀ r ∈ extractTasksOutput (String.toList "[]"), r.isObj = true) ∧
      (extractRawFallback errNoParse (String.toList "[]")).length = 1 ∧
      (∀ r ∈ extractRawFallback errNoParse (String.toList "[]"), r.isObj = true)) :=
  extract_total_shape (String.toList "[]") errNoParse

/-- C5: when the shared parsing step yields a single JSON object the
extraction result is a one-element list containing exactly that object (in
every branch of the block), and when it yields a non-array non-object
scalar the result is a one-element list wrapping the raw text under a
diagnostic key (raw_output in the tasks_output branch, raw_data in the
fallback branches). -/
theorem extract_object_scalar :
    ∀ raw : List Char,
      (∀ fields, extractCore raw = some (Json.obj fields) →
        extractTasksOutput raw = [Json.obj fields] ∧
        extractRawFallback errNoParse raw = [Json.obj fields] ∧
        extractRawFallback errNoResults raw = [Json.obj fields]) ∧
      (∀ v, extractCore raw = some v → v.isObj = false → v.isArr = false →
        extractTasksOutput raw = [Json.obj [("raw_output".toList, Json.str raw)]] ∧
        extractRawFallback errNoParse raw
          = [Json.obj [("raw_data".toList, Json.str raw)]]) := by
  intro raw
  constructor
  · intro fields h
    exact ⟨by rw [extractTasksOutput, h], by rw [extractRawFallback, h],
      by rw [extractRawFallback, h]⟩
  · intro v h hobj harr
    cases v <;> simp [Json.isObj, Json.isArr] at hobj harr <;>
      exact ⟨by rw [extractTasksOutput, h], by rw [extractRawFallback, h]⟩

/-- Witness for C5: a bare JSON object parses and is returned as the only
element; a bare scalar is wrapped under the raw_output key. -/
theorem extract_object_scalar_witness :
    extractTasksOutput (String.toList "\x7b\"a\": 1\x7d")
      = [Json.obj [("a".toList, Json.num ['1'])]] ∧
    extractTasksOutput (String.toList "42")
      = [Json.obj [("raw_output".toList, Json.str "42".toList)]] :=
  ⟨((extract_object_scalar (String.toList "\x7b\"a\": 1\x7d")).1
      [("a".toList, Json.num ['1'])] rfl).1,
    ((extract_object_scalar (String.toList "42")).2
      (Json.num ['4', '2']) rfl rfl rfl).1⟩

/-- C3 counterexample: on unparsable input the fallback diagnostic record's
error field is the message Could not parse results (or No valid results
found), never the literal parse_failed the claim states; the raw field does
hold the (short, untruncated) input. -/
theorem parse_failed_message_cex :
    extractRawFallback errNoParse (String.toList "not json")
      = [Json.obj [("error".toList, Json.str errNoParse),
          ("raw".toList, Json.str "not json".toList)]] ∧
    errNoParse ≠ "parse_failed".toList ∧
    errNoResults ≠ "parse_failed".toList :=
  ⟨rfl, by decide, by decide⟩

/-- C3 amended: when no parsing tier succeeds, the two results.raw fallback
branches return exactly a one-element list holding the diagnostic record
with error field Could not parse results respectively No valid results
found and raw field the input truncated to 500 characters with an ellipsis
appended when longer, while the tasks_output branch returns a one-element
list holding the untruncated input under the raw_output key. -/
theorem parse_failure_diagnostic :
    ∀ raw : List Char, extractCore raw = none →
      extractRawFallback errNoParse raw
        = [Json.obj [("error".toList, Json.str errNoParse),
            ("raw".toList, Json.str (truncRaw raw))]] ∧
      extractRawFallback errNoResults raw
        = [Json.obj [("error".toList, Json.str errNoResults),
            ("raw".toList, Json.str (truncRaw raw))]] ∧
      extractTasksOutput raw = [Json.obj [("raw_output".toList, Json.str raw)]] := by
  intro raw h
  exact ⟨by rw [extractRawFallback, h], by rw [extractRawFallback, h],
    by rw [extractTasksOutput, h]⟩

/-- Witness for C3 on a concrete unparsable input. -/
theorem parse_failure_diagnostic_witness :
    extractCore (String.toList "not json") = none ∧
    extractRawFallback errNoResults (String.toList "not json")
      = [Json.obj [("error".toList, Json.str errNoResults),
          ("raw".toList, Json.str "not json".toList)]] :=
  ⟨rfl, (parse_failure_diagnostic (String.toList "not json") rfl).2.1⟩

/-- C4 counterexample: for a concrete unparsable 501-character input the
diagnostic raw field is the first 500 characters followed by the
three-character ellipsis, so its length is 503, not the claimed 501. -/
theorem trunc_length_cex :
    extractRawFallback errNoParse (List.replicate 501 'x')
      = [Json.obj [("error".toList, Json.str errNoParse),
          ("raw".toList, Json.str (List.replicate 500 'x' ++ "...".toList))]] ∧
    (List.replicate 500 'x' ++ "...".toList).length = 503 ∧
    (503 : Nat) ≠ 501 := by
  refine ⟨?_, by simp, by decide⟩
  have h : extractCore (List.replicate 501 'x') = none := by rfl
  rw [extractRawFallback, h]
  rfl

/-- C4 amended: for every unparsable input longer than 500 characters the
diagnostic record's raw field is the 500-character prefix followed by the
three-character ellipsis ..., so it has length exactly 503 and ends with
the ellipsis. -/
theorem trunc_length :
    ∀ raw : List Char, extractCore raw = none → 500 < raw.length →
      extractRawFallback errNoParse raw
        = [Json.obj [("error".toList, Json.str errNoParse),
            ("raw".toList, Json.str (truncRaw raw))]] ∧
      (truncRaw raw).length = 503 ∧
      (truncRaw raw).drop 500 = "...".toList := by
  intro raw h hlen
  have htake : (raw.take 500).length = 500 := by
    rw [List.length_take]
    omega
  refine ⟨by rw [extractRawFallback, h], ?_, ?_⟩
  · rw [truncRaw, if_pos hlen, List.length_append, htake]
    rfl
  · rw [truncRaw, if_pos hlen]
    calc (raw.take 500 ++ "...".toList).drop 500
        = (raw.take 500 ++ "...".toList).drop (raw.take 500).length := by rw [htake]
      _ = "...".toList := List.drop_left _ _

/-- Witness for C4 on the concrete 501-character unparsable input. -/
theorem trunc_length_witness :
    extractCore (List.replicate 501 'x') = none ∧
    (truncRaw (List.replicate 501 'x')).length = 503 ∧
    (truncRaw (List.replicate 501 'x')).drop 500 = "...".toList :=
  ⟨rfl, (trunc_length (List.replicate 501 'x') rfl (by simp)).2.1,
    (trunc_length (List.replicate 501 'x') rfl (by simp)).2.2⟩

/-! ### Splitting lemmas for the fenced round-trip -/

/-- A pattern is a prefix of itself followed by anything. -/
theorem isPrefixOf_append_self : ∀ (p t : List Char), p.isPrefixOf (p ++ t) = true := by
  intro p t
  induction p with
  | nil => simp [List.isPrefixOf]
  | cons c cs ih => simp [List.isPrefixOf, ih]

/-- Being a prefix is transitive, at the Bool level. -/
theorem isPrefixOf_trans :
    ∀ (p q s : List Char), p.isPrefixOf q = true → q.isPrefixOf s = true →
      p.isPrefixOf s = true := by
  intro p
  induction p with
  | nil => intro q s _ _; simp [List.isPrefixOf]
  | cons x xs ih =>
    intro q s hpq hqs
    cases q with
    | nil => simp [List.isPrefixOf] at hpq
    | cons y ys =>
      cases s with
      | nil => simp [List.isPrefixOf] at hqs
      | cons z zs =>
        simp only [List.isPrefixOf, Bool.and_eq_true, beq_iff_eq] at hpq hqs ⊢
        exact ⟨hpq.1.trans hqs.1, ih ys zs hpq.2 hqs.2⟩

/-- A newline-free pattern that fails on a text keeps failing when the
text is extended past a newline. -/
theorem isPrefixOf_extend_newline :
    ∀ (s p u : List Char), p ≠ [] → ('\n' ∈ p → False) →
      p.isPrefixOf s = false → p.isPrefixOf (s ++ '\n' :: u) = false := by
  intro s
  induction s with
  | nil =>
    intro p u hne hnl _
    cases p with
    | nil => exact absurd rfl hne
    | cons x xs =>
      have hx : (x == '\n') = false := by
        rw [beq_eq_false_iff_ne]
        intro hx
        exact hnl (hx ▸ List.mem_cons_self x xs)
      simp only [List.nil_append, List.isPrefixOf, hx, Bool.false_and]
  | cons a s' ih =>
    intro p u hne hnl h
    cases p with
    | nil => simp [List.isPrefixOf] at h
    | cons x xs =>
      rw [List.cons_append]
      simp only [List.isPrefixOf] at h ⊢
      cases hxa : (x == a) with
      | false => rw [Bool.false_and]
      | true =>
        rw [hxa, Bool.true_and] at h
        rw [Bool.true_and]
        cases xs with
        | nil => simp [List.isPrefixOf] at h
        | cons y ys =>
          exact ih (y :: ys) u (by simp)
            (fun hm => hnl (List.mem_cons_of_mem x hm)) h

/-- A nonempty newline-free pattern never matches at a newline head. -/
theorem isPrefixOf_newline_head (p : List Char) (hp : p ≠ [])
    (hnl : '\n' ∈ p → False) (s : List Char) :
    p.isPrefixOf ('\n' :: s) = false := by
  cases p with
  | nil => exact absurd rfl hp
  | cons x xs =>
    have hx : (x == '\n') = false := by
      rw [beq_eq_false_iff_ne]
      intro h
      exact hnl (h ▸ List.mem_cons_self x xs)
    simp only [List.isPrefixOf, hx, Bool.false_and]

/-- Splitting a text that begins with the pattern cuts at position zero. -/
theorem splitOnFirst_self (pat rest : List Char) (hne : pat ≠ []) :
    splitOnFirst pat (pat ++ rest) = some ([], rest) := by
  cases pat with
  | nil => exact absurd rfl hne
  | cons c cs =>
    rw [List.cons_append, splitOnFirst]
    have hpre : (c :: cs).isPrefixOf (c :: (cs ++ rest)) = true := by
      rw [← List.cons_append]
      exact isPrefixOf_append_self (c :: cs) rest
    rw [hpre, if_pos rfl]
    rw [← List.cons_append, List.drop_left]

/-- Characterization of a failed split on a cons cell. -/
theorem splitOnFirst_cons_none (pat : List Char) (c : Char) (rest : List Char) :
    splitOnFirst pat (c :: rest) = none ↔
      pat.isPrefixOf (c :: rest) = false ∧ splitOnFirst pat rest = none := by
  rw [splitOnFirst]
  cases hb : pat.isPrefixOf (c :: rest) with
  | true => simp [hb]
  | false =>
    simp only [Bool.false_eq_true, if_false, hb, true_and]
    cases hr : splitOnFirst pat rest with
    | none => simp
    | some pr =>
      rcases pr with ⟨a, b⟩
      simp

/-- A successful split on the tail shifts through a non-matching head. -/
theorem splitOnFirst_cons_shift (pat : List Char) (c : Char) (rest a b : List Char)
    (hpre : pat.isPrefixOf (c :: rest) = false)
    (h : splitOnFirst pat rest = some (a, b)) :
    splitOnFirst pat (c :: rest) = some (c :: a, b) := by
  rw [splitOnFirst, hpre]
  simp only [Bool.false_eq_true, if_false]
  rw [h]

/-- A newline-free pattern absent from two pieces is absent from their
splice around a newline. -/
theorem splitOnFirst_none_append (pat : List Char) (hne : pat ≠ [])
    (hnl : '\n' ∈ pat → False) :
    ∀ (j u : List Char), splitOnFirst pat j = none →
      splitOnFirst pat ('\n' :: u) = none →
      splitOnFirst pat (j ++ '\n' :: u) = none := by
  intro j
  induction j with
  | nil => intro u _ h2; exact h2
  | cons c j' ih =>
    intro u h1 h2
    rw [splitOnFirst_cons_none] at h1
    rw [List.cons_append, splitOnFirst_cons_none]
    constructor
    · rw [← List.cons_append]
      exact isPrefixOf_extend_newline (c :: j') pat u hne hnl h1.1
    · exact ih u h1.2 h2

/-- If a pattern does not occur, no extension of it occurs either. -/
theorem splitOnFirst_mono_none (p q : List Char) (hpq : p.isPrefixOf q = true) :
    ∀ s, splitOnFirst p s = none → splitOnFirst q s = none := by
  intro s
  induction s with
  | nil => intro _; rfl
  | cons c rest ih =>
    intro h
    rw [splitOnFirst_cons_none] at h ⊢
    refine ⟨?_, ih h.2⟩
    cases hb : q.isPrefixOf (c :: rest) with
    | false => rfl
    | true =>
      have := isPrefixOf_trans p q (c :: rest) hpq hb
      rw [h.1] at this
      exact absurd this (by simp)

/-- The first fence in text-without-fence followed by newline-fence is the
final fence. -/
theorem splitOnFirst_fence_close :
    ∀ j : List Char, splitOnFirst fenceDelim j = none →
      splitOnFirst fenceDelim (j ++ '\n' :: fenceDelim) = some (j ++ ['\n'], []) := by
  intro j
  induction j with
  | nil => intro _; decide
  | cons c j' ih =>
    intro h
    rw [splitOnFirst_cons_none] at h
    rw [List.cons_append]
    have hpre : fenceDelim.isPrefixOf (c :: (j' ++ '\n' :: fenceDelim)) = false := by
      rw [← List.cons_append]
      exact isPrefixOf_extend_newline (c :: j') fenceDelim fenceDelim
        (by decide) (by decide) h.1
    rw [splitOnFirst_cons_shift fenceDelim c _ _ _ hpre (ih h.2)]
    rfl

/-! ### Strip lemmas for the fenced round-trip -/

/-- Dropping a whitespace head before a left strip changes nothing. -/
theorem stripLeft_cons_ws (c : Char) (s : List Char) (hc : isWsChar c = true) :
    stripLeft (c :: s) = stripLeft s := by
  simp [stripLeft, List.dropWhile_cons, hc]

/-- Dropping a whitespace tail before a right strip changes nothing. -/
theorem stripRight_append_ws (s : List Char) (c : Char) (hc : isWsChar c = true) :
    stripRight (s ++ [c]) = stripRight s := by
  rw [stripRight, stripRight, List.reverse_append]
  simp [List.dropWhile_cons, hc]

/-- Left strip over an append. -/
theorem stripLeft_append (s t : List Char) :
    stripLeft (s ++ t) = if stripLeft s = [] then stripLeft t else stripLeft s ++ t := by
  induction s with
  | nil => simp [stripLeft]
  | cons c s' ih =>
    by_cases hc : isWsChar c = true
    · rw [List.cons_append, stripLeft_cons_ws c _ hc, stripLeft_cons_ws c _ hc]
      exact ih
    · have hc' : isWsChar c = false := by
        cases hb : isWsChar c
        · rfl
        · exact absurd hb hc
      have h1 : stripLeft (c :: (s' ++ t)) = c :: (s' ++ t) := by
        simp [stripLeft, List.dropWhile_cons, hc']
      have h2 : stripLeft (c :: s') = c :: s' := by
        simp [stripLeft, List.dropWhile_cons, hc']
      rw [List.cons_append, h1, h2]
      simp

/-- A leading newline does not change a full strip. -/
theorem pyStrip_cons_newline (s : List Char) : pyStrip ('\n' :: s) = pyStrip s := by
  rw [pyStrip, pyStrip, stripLeft_cons_ws '\n' s (by decide)]

/-- A trailing newline does not change a full strip. -/
theorem pyStrip_append_newline (s : List Char) : pyStrip (s ++ ['\n']) = pyStrip s := by
  rw [pyStrip, pyStrip, stripLeft_append]
  by_cases h : stripLeft s = []
  · rw [if_pos h, h]
    decide
  · rw [if_neg h]
    exact stripRight_append_ws (stripLeft s) '\n' (by decide)

/-- The head surviving a dropWhile fails the predicate. -/
theorem dropWhile_head_not (p : Char → Bool) :
    ∀ (l : List Char) (x : Char) (xs : List Char),
      l.dropWhile p = x :: xs → p x = false := by
  intro l
  induction l with
  | nil => intro x xs h; simp at h
  | cons a l' ih =>
    intro x xs h
    rw [List.dropWhile_cons] at h
    by_cases ha : p a = true
    · rw [if_pos ha] at h
      exact ih x xs h
    · rw [if_neg ha] at h
      injection h with h1 _
      subst h1
      cases hb : p a
      · rfl
      · exact absurd hb ha

/-- dropWhile is idempotent. -/
theorem dropWhile_idem (p : Char → Bool) (l : List Char) :
    (l.dropWhile p).dropWhile p = l.dropWhile p := by
  cases h : l.dropWhile p with
  | nil => rfl
  | cons x xs =>
    have hx : p x = false := dropWhile_head_not p l x xs h
    rw [List.dropWhile_cons, hx]
    simp

/-- Right strip is idempotent. -/
theorem stripRight_idem (s : List Char) : stripRight (stripRight s) = stripRight s := by
  rw [stripRight, stripRight, List.reverse_reverse, dropWhile_idem]

/-- A right strip is an initial segment of its input. -/
theorem stripRight_front (s : List Char) : stripRight s <+: s := by
  obtain ⟨u, hu⟩ := List.dropWhile_suffix (l := s.reverse) isWsChar
  exact ⟨u.reverse, by rw [stripRight, ← List.reverse_append, hu, List.reverse_reverse]⟩

/-- The full strip is idempotent. -/
theorem pyStrip_idem (s : List Char) : pyStrip (pyStrip s) = pyStrip s := by
  simp only [pyStrip]
  have h2 : stripLeft (stripRight (stripLeft s)) = stripRight (stripLeft s) := by
    cases hsr : stripRight (stripLeft s) with
    | nil => rfl
    | cons x xs =>
      obtain ⟨u, hu⟩ := stripRight_front (stripLeft s)
      rw [hsr] at hu
      have hx : isWsChar x = false := by
        apply dropWhile_head_not isWsChar s x (xs ++ u)
        have : stripLeft s = x :: (xs ++ u) := by
          rw [← hu, List.cons_append]
        rw [← this]
        rfl
      simp [stripLeft, List.dropWhile_cons, hx]
  rw [h2, stripRight_idem]

/-- json.loads is insensitive to an outer strip of its input. -/
theorem parseJson_pyStrip (s : List Char) : parseJson (pyStrip s) = parseJson s := by
  simp only [parseJson, pyStrip_idem]

/-- C2 counterexample: the one-element JSON array holding the string of
three backticks parses, but extracting its fenced form cuts the block at
the backticks inside the string, the parse fails, and the result is the
raw_output diagnostic record instead of the original array. -/
theorem fenced_roundtrip_cex :
    parseJson (String.toList "[\"```\"]")
      = some (Json.arr [Json.str "```".toList]) ∧
    extractTasksOutput
        ("```json\n".toList ++ String.toList "[\"```\"]" ++ "\n```".toList)
      = [Json.obj [("raw_output".toList,
          Json.str ("```json\n".toList ++ String.toList "[\"```\"]" ++ "\n```".toList))]] ∧
    [Json.obj [("raw_output".toList,
        Json.str ("```json\n".toList ++ String.toList "[\"```\"]" ++ "\n```".toList))]]
      ≠ [Json.str "```".toList] := by
  refine ⟨rfl, rfl, ?_⟩
  intro h
  injection h with h1 _
  injection h1

/-- C2 amended: for every well-formed JSON array text that does not
contain the fence delimiter, wrapping it in a json fenced block and
extracting returns exactly the parsed array. -/
theorem fenced_roundtrip :
    ∀ (j : List Char) (items : List Json),
      parseJson j = some (Json.arr items) →
      containsSub fenceDelim j = false →
      extractTasksOutput ("```json\n".toList ++ j ++ "\n```".toList) = items := by
  intro j items hparse hfence
  have hfence' : splitOnFirst fenceDelim j = none := by
    cases hs : splitOnFirst fenceDelim j with
    | none => rfl
    | some pr =>
      rw [containsSub, hs] at hfence
      simp at hfence
  have hshape : "```json\n".toList ++ j ++ "\n```".toList
      = jsonTag ++ ('\n' :: (j ++ '\n' :: fenceDelim)) := by
    have hA : "```json\n".toList = jsonTag ++ ['\n'] := by decide
    have hB : "\n```".toList = '\n' :: fenceDelim := by decide
    rw [hA, hB]
    simp [List.append_assoc]
  have hT_tag : splitOnFirst jsonTag ('\n' :: (j ++ '\n' :: fenceDelim)) = none := by
    rw [splitOnFirst_cons_none]
    constructor
    · exact isPrefixOf_newline_head jsonTag (by decide) (by decide) _
    · apply splitOnFirst_none_append jsonTag (by decide) (by decide)
      · exact splitOnFirst_mono_none fenceDelim jsonTag (by decide) j hfence'
      · decide
  have hT_fence : splitOnFirst fenceDelim ('\n' :: (j ++ '\n' :: fenceDelim))
      = some ('\n' :: (j ++ ['\n']), []) := by
    apply splitOnFirst_cons_shift
    · exact isPrefixOf_newline_head fenceDelim (by decide) (by decide) _
    · exact splitOnFirst_fence_close j hfence'
  have htU1 : takeUntil jsonTag ('\n' :: (j ++ '\n' :: fenceDelim))
      = '\n' :: (j ++ '\n' :: fenceDelim) := by
    rw [takeUntil, hT_tag]
  have htU2 : takeUntil fenceDelim ('\n' :: (j ++ '\n' :: fenceDelim))
      = '\n' :: (j ++ ['\n']) := by
    rw [takeUntil, hT_fence]
  have hcore : extractCore ("```json\n".toList ++ j ++ "\n```".toList)
      = some (Json.arr items) := by
    rw [hshape, extractCore,
      splitOnFirst_self jsonTag ('\n' :: (j ++ '\n' :: fenceDelim)) (by decide)]
    show parseJson (pyStrip (takeUntil fenceDelim
      (takeUntil jsonTag ('\n' :: (j ++ '\n' :: fenceDelim))))) = some (Json.arr items)
    rw [htU1, htU2, pyStrip_cons_newline, pyStrip_append_newline, parseJson_pyStrip]
    exact hparse
  exact tasksOutput_of_arr _ items hcore

/-- Witness for C2 on a concrete fenced two-number array. -/
theorem fenced_roundtrip_witness :
    parseJson (String.toList "[1, 2]")
      = some (Json.arr [Json.num ['1'], Json.num ['2']]) ∧
    containsSub fenceDelim (String.toList "[1, 2]") = false ∧
    extractTasksOutput ("```json\n".toList ++ String.toList "[1, 2]" ++ "\n```".toList)
      = [Json.num ['1'], Json.num ['2']] :=
  ⟨rfl, by decide,
    fenced_roundtrip (String.toList "[1, 2]") [Json.num ['1'], Json.num ['2']]
      rfl (by decide)⟩

end LeadGen

